import Mathlib

/-!
Verification development for the `express-git-puller` webhook deployment
engine (src/Puller.ts, src/Github.ts).  The definitions below are a shallow
embedding of the TypeScript source: each Lean function mirrors the
correspondingly named method of the `Puller` class, including JavaScript
dynamic-semantics details (truthiness of empty strings, object spread
merging, `String.prototype.replace` scanning, Node `crypto` primitives).
-/

namespace ExpressGitPuller

/-! ## JS string helpers

`String.prototype.replace(new RegExp(escapedLiteral, "g"), val)` replaces the
non-overlapping occurrences of a literal pattern, scanning left to right.
`replace` without the `g` flag replaces only the first occurrence.  Both are
modelled on `List Char`; the variable tokens built by the source
(`"$" + name + "$"`) are never empty, so the models are only used with
non-empty patterns. -/

/-- Does `pat` occur as a contiguous substring of `s`? -/
def containsSub (pat : List Char) : List Char → Bool
  | [] => pat.isEmpty
  | c :: rest => pat.isPrefixOf (c :: rest) || containsSub pat rest

/-- JS `s.replace(/pat/, val)`: replace the first occurrence of the literal
pattern `pat` (anywhere in the string, not only as a prefix). -/
def replaceOnceL (pat val : List Char) : List Char → List Char
  | [] => []
  | c :: rest =>
    if pat.isPrefixOf (c :: rest) then val ++ (c :: rest).drop pat.length
    else c :: replaceOnceL pat val rest

/-- Fuel-driven worker for `replaceAllL`: every step either keeps one
character or consumes a non-empty match, so `s.length` fuel always
suffices. -/
def replaceAllFuel (pat val : List Char) : Nat → List Char → List Char
  | _, [] => []
  | 0, s => s
  | fuel + 1, c :: rest =>
    if pat ≠ [] ∧ pat.isPrefixOf (c :: rest) then
      val ++ replaceAllFuel pat val fuel ((c :: rest).drop pat.length)
    else
      c :: replaceAllFuel pat val fuel rest

/-- JS `s.replace(/pat/g, val)`: replace every non-overlapping occurrence of
the literal pattern, scanning left to right (defined here for non-empty
patterns; the engine only builds non-empty `$name$` patterns). -/
def replaceAllL (pat val s : List Char) : List Char :=
  replaceAllFuel pat val s.length s

/-- String wrapper for `replaceAllL`. -/
def replaceAllStr (pat val s : String) : String :=
  String.mk (replaceAllL pat.toList val.toList s.toList)

/-- String wrapper for `replaceOnceL`. -/
def replaceOnceStr (pat val s : String) : String :=
  String.mk (replaceOnceL pat.toList val.toList s.toList)

/-- String wrapper for `containsSub`. -/
def containsSubStr (pat s : String) : Bool :=
  containsSub pat.toList s.toList

/-- JS `s.toLowerCase()` (ASCII range, which is all the engine compares). -/
def jsToLower (s : String) : String :=
  String.mk (s.toList.map Char.toLower)

/-- JS `s.startsWith(p)`. -/
def jsStartsWith (s p : String) : Bool :=
  p.toList.isPrefixOf s.toList

/-- JS `s.trim()`: strip leading and trailing whitespace. -/
def jsTrim (s : String) : String :=
  String.mk (((s.toList.dropWhile Char.isWhitespace).reverse.dropWhile
      Char.isWhitespace).reverse)

/-! ## Data model (src/Github.ts)

The TypeScript interfaces declare `ref` as a required string and `base_ref`
as optional; `pusher`, `head_commit` and `commits` are declared required but
the engine code guards each of them against runtime absence
(`!body.pusher`, `!body.head_commit && !body.commits`), so they are modelled
as `Option`.  A JSON value that is an empty string is falsy in JS;
absence of `ref` is therefore represented by `""`. -/

structure GithubUser where
  email : String := ""
  name : String := ""
deriving DecidableEq

structure GithubCommit where
  id : String := ""
  message : String := ""
deriving DecidableEq

structure GithubBody where
  commits : Option (List GithubCommit) := none
  head_commit : Option GithubCommit := none
  pusher : Option GithubUser := none
  base_ref : Option String := none
  ref : String := ""
deriving DecidableEq

/-- An inbound express request, restricted to the parts the engine reads.
`rawBody` is the byte-for-byte request body as delivered on the wire (the
text a webhook sender signs); `body` is the value produced from it by the
JSON body parser (`bodyParser.json()` in the documented setup). -/
structure Request where
  method : String
  /-- header map, names lowercased by Node -/
  headers : List (String × String)
  /-- `req.query.token` -/
  queryToken : Option String := none
  rawBody : String := ""
  body : Option GithubBody := none

/-- `headers[name]`: absent headers read as `undefined`. -/
def getHeader (req : Request) (name : String) : Option String :=
  req.headers.lookup name

/-- JS falsiness of an optional string (`!h || h.length <= 0`). -/
def jsFalsy : Option String → Bool
  | none => true
  | some s => s = ""

/-! ## Options (src/Puller.ts) -/

/-- The merged, total option set held in `this._options`.  The two ignore
regexes are modelled by their `.test` predicates, the `precondition`
callback by a boolean predicate on the request. -/
structure Options where
  events : List String
  secret : String
  token : String
  /-- ordered key/value pairs: JS object insertion order -/
  vars : List (String × String)
  pusherIgnoreRegex : Option (String → Bool)
  commitIgnoreRegex : Option (String → Bool)
  branches : List String
  onlyTags : Bool
  commandOrder : List String
  commands : List (String × List String)
  delays : List (String × Nat)
  dryCommands : Bool
  logCommands : Bool
  precondition : Option (Request → Bool)

/-- `/\[bot\]/i.test s` — case-insensitive literal search for `[bot]`. -/
def defaultPusherIgnore (s : String) : Bool := containsSubStr "[bot]" (jsToLower s)

/-- `/\[nopull\]/i.test s` — case-insensitive literal search for `[nopull]`. -/
def defaultCommitIgnore (s : String) : Bool := containsSubStr "[nopull]" (jsToLower s)

/-- `DEFAULT_OPTIONS` of src/Puller.ts. -/
def DEFAULT_OPTIONS : Options where
  events := ["push"]
  secret := ""
  token := ""
  vars := [("appName", "ExampleApp"), ("remote", "origin"), ("branch", "master")]
  pusherIgnoreRegex := some defaultPusherIgnore
  commitIgnoreRegex := some defaultCommitIgnore
  branches := ["main", "master"]
  onlyTags := false
  commandOrder := ["pre", "git", "install", "post"]
  commands := [("pre", []),
               ("git", ["git fetch $remote$ $branch$", "git pull $remote$ $branch$"]),
               ("install", ["npm install"]),
               ("post", ["pm2 restart $appName$"])]
  delays := [("pre", 0), ("git", 0), ("install", 0), ("post", 0)]
  dryCommands := false
  logCommands := false
  precondition := none

/-- A user-supplied (partial) `Options` object: every key may be absent. -/
structure OptionsIn where
  events : Option (List String) := none
  secret : Option String := none
  token : Option String := none
  vars : Option (List (String × String)) := none
  pusherIgnoreRegex : Option (Option (String → Bool)) := none
  commitIgnoreRegex : Option (Option (String → Bool)) := none
  branches : Option (List String) := none
  onlyTags : Option Bool := none
  commandOrder : Option (List String) := none
  commands : Option (List (String × List String)) := none
  delays : Option (List (String × Nat)) := none
  dryCommands : Option Bool := none
  logCommands : Option Bool := none
  precondition : Option (Option (Request → Bool)) := none

/-- One-level JS object spread `\x7b...d, ...u\x7d` on string-keyed maps:
keys of `d` keep their position (value overridden when `u` has the key),
keys only in `u` are appended in `u`'s order. -/
def mergeAssoc {α : Type} (d u : List (String × α)) : List (String × α) :=
  (d.map (fun p => match u.lookup p.1 with
    | some v => (p.1, v)
    | none => p)) ++ u.filter (fun p => (d.lookup p.1).isNone)

/-- The `Puller` constructor.  `options` is declared optional; the spreads
`\x7b...DEFAULT_OPTIONS, ...options\x7d` tolerate `undefined`, but the
subsequent member accesses `options.vars`, `options.commands`,
`options.delays` throw a `TypeError` when `options` is `undefined`. -/
def pullerConstructor : Option OptionsIn → Except String Options
  | none => .error "TypeError: cannot read vars of undefined"
  | some oi => .ok
      { events := oi.events.getD DEFAULT_OPTIONS.events
        secret := oi.secret.getD DEFAULT_OPTIONS.secret
        token := oi.token.getD DEFAULT_OPTIONS.token
        vars := mergeAssoc DEFAULT_OPTIONS.vars (oi.vars.getD [])
        pusherIgnoreRegex := oi.pusherIgnoreRegex.getD DEFAULT_OPTIONS.pusherIgnoreRegex
        commitIgnoreRegex := oi.commitIgnoreRegex.getD DEFAULT_OPTIONS.commitIgnoreRegex
        branches := oi.branches.getD DEFAULT_OPTIONS.branches
        onlyTags := oi.onlyTags.getD DEFAULT_OPTIONS.onlyTags
        commandOrder := oi.commandOrder.getD DEFAULT_OPTIONS.commandOrder
        commands := mergeAssoc DEFAULT_OPTIONS.commands (oi.commands.getD [])
        delays := mergeAssoc DEFAULT_OPTIONS.delays (oi.delays.getD [])
        dryCommands := oi.dryCommands.getD DEFAULT_OPTIONS.dryCommands
        logCommands := oi.logCommands.getD DEFAULT_OPTIONS.logCommands
        precondition := oi.precondition.getD DEFAULT_OPTIONS.precondition }

/-! ## Node crypto / Buffer primitives

`crypto.createHmac("sha1", secret).update(str).digest("hex")` and
`Buffer.from(str, "utf8")` are external Node primitives; they are modelled
bit-for-bit (UTF-8 encoding, SHA-1, HMAC per RFC 2104, lowercase hex). -/

/-- Truncate to a 32-bit word. -/
def w32 (x : Nat) : Nat := x % 4294967296

/-- 32-bit left rotation. -/
def rotl (n x : Nat) : Nat := w32 ((x <<< n) ||| (x >>> (32 - n)))

/-- UTF-8 encoding of a single character (the or-with-mask formulation of
the standard is written with `+`, `/` and `%`: the bit fields never
overlap). -/
def utf8EncodeChar (c : Char) : List Nat :=
  let n := c.toNat
  if n < 0x80 then [n]
  else if n < 0x800 then [0xC0 + n / 64, 0x80 + n % 64]
  else if n < 0x10000 then [0xE0 + n / 4096, 0x80 + (n / 64) % 64, 0x80 + n % 64]
  else [0xF0 + n / 262144, 0x80 + (n / 4096) % 64, 0x80 + (n / 64) % 64, 0x80 + n % 64]

/-- `Buffer.from(s, "utf8")` as a byte list. -/
def utf8Bytes (s : String) : List Nat :=
  s.toList.foldr (fun c acc => utf8EncodeChar c ++ acc) []

/-- SHA-1 message padding: append `0x80`, zeros, and the 64-bit big-endian
bit length, reaching a multiple of 64 bytes. -/
def sha1Pad (msg : List Nat) : List Nat :=
  let len := msg.length
  let bitLen := len * 8
  let padZeros := (119 - len % 64) % 64
  msg ++ [0x80] ++ List.replicate padZeros 0 ++
    ((List.range 8).map (fun i => (bitLen >>> (56 - 8 * i)) % 256))

/-- Big-endian 32-bit words from a byte list. -/
def bytesToWords : List Nat → List Nat
  | b0 :: b1 :: b2 :: b3 :: rest =>
    (((b0 * 256 + b1) * 256 + b2) * 256 + b3) :: bytesToWords rest
  | _ => []

/-- Fuel-driven worker for `chunks64`: each step consumes at least one
byte, so `l.length` fuel always suffices. -/
def chunksFuel : Nat → List Nat → List (List Nat)
  | _, [] => []
  | 0, _ => []
  | fuel + 1, c :: rest => ((c :: rest).take 64) :: chunksFuel fuel ((c :: rest).drop 64)

/-- Split a byte list into 64-byte chunks. -/
def chunks64 (l : List Nat) : List (List Nat) :=
  chunksFuel l.length l

/-- Extend the 16 schedule words by `fuel` more words. -/
def extendWords (ws : List Nat) : Nat → List Nat
  | 0 => ws
  | n + 1 =>
    let i := ws.length
    extendWords
      (ws ++ [rotl 1 ((ws.getD (i - 3) 0 ^^^ ws.getD (i - 8) 0) ^^^
                      (ws.getD (i - 14) 0 ^^^ ws.getD (i - 16) 0))]) n

/-- One SHA-1 round. -/
def sha1Step (i wi : Nat) (st : Nat × Nat × Nat × Nat × Nat) :
    Nat × Nat × Nat × Nat × Nat :=
  let (a, b, c, d, e) := st
  let f :=
    if i < 20 then (b &&& c) ||| ((4294967295 ^^^ b) &&& d)
    else if i < 40 then (b ^^^ c) ^^^ d
    else if i < 60 then ((b &&& c) ||| (b &&& d)) ||| (c &&& d)
    else (b ^^^ c) ^^^ d
  let k :=
    if i < 20 then 0x5A827999
    else if i < 40 then 0x6ED9EBA1
    else if i < 60 then 0x8F1BBCDC
    else 0xCA62C1D6
  (w32 (rotl 5 a + f + e + k + wi), a, rotl 30 b, c, d)

/-- Compress one 64-byte chunk into the running hash state. -/
def sha1Chunk (h : Nat × Nat × Nat × Nat × Nat) (chunk : List Nat) :
    Nat × Nat × Nat × Nat × Nat :=
  let ws := extendWords (bytesToWords chunk) 64
  let (h0, h1, h2, h3, h4) := h
  let (a, b, c, d, e) :=
    (List.range 80).foldl (fun st i => sha1Step i (ws.getD i 0) st)
      (h0, h1, h2, h3, h4)
  (w32 (h0 + a), w32 (h1 + b), w32 (h2 + c), w32 (h3 + d), w32 (h4 + e))

/-- Big-endian bytes of a 32-bit word. -/
def wordBytes (w : Nat) : List Nat :=
  [(w >>> 24) % 256, (w >>> 16) % 256, (w >>> 8) % 256, w % 256]

/-- SHA-1 digest (20 bytes) of a byte list. -/
def sha1 (msg : List Nat) : List Nat :=
  let (h0, h1, h2, h3, h4) :=
    (chunks64 (sha1Pad msg)).foldl sha1Chunk
      (0x67452301, 0xEFCDAB89, 0x98BADCFE, 0x10325476, 0xC3D2E1F0)
  wordBytes h0 ++ wordBytes h1 ++ wordBytes h2 ++ wordBytes h3 ++ wordBytes h4

/-- HMAC-SHA1 (RFC 2104) over byte lists. -/
def hmacSha1 (key msg : List Nat) : List Nat :=
  let key := if key.length > 64 then sha1 key else key
  let key := key ++ List.replicate (64 - key.length) 0
  let opad := key.map (fun b => b ^^^ 0x5c)
  let ipad := key.map (fun b => b ^^^ 0x36)
  sha1 (opad ++ sha1 (ipad ++ msg))

/-- Lowercase hex digit. -/
def hexDigit (n : Nat) : Char := "0123456789abcdef".toList.getD n '0'

/-- Lowercase hex string of a byte list. -/
def bytesToHex (bs : List Nat) : String :=
  String.mk (bs.foldr (fun b acc => hexDigit (b / 16) :: hexDigit (b % 16) :: acc) [])

/-- `crypto.createHmac("sha1", secret).update(msg).digest("hex")` with the
default UTF-8 input encodings. -/
def hmacSha1Hex (secret msg : String) : String :=
  bytesToHex (hmacSha1 (utf8Bytes secret) (utf8Bytes msg))

/-- Node `crypto.timingSafeEqual`: throws a `RangeError` when the buffers
differ in byte length, otherwise compares them in constant time. -/
def timingSafeEqual (a b : List Nat) : Except String Bool :=
  if a.length ≠ b.length then
    .error "RangeError: input buffers must have the same byte length"
  else .ok (a == b)

/-! ## JSON.stringify of the parsed body

With the documented `bodyParser.json()` setup, `req.body` is the object
parsed from the raw body text; `JSON.stringify(req.body)` re-serializes it
compactly, emitting the object's keys in insertion order (here: the field
order of the model) and omitting absent (`undefined`) fields. -/

/-- JSON string-character escaping as performed by `JSON.stringify`. -/
def jsonEscapeChar (c : Char) : List Char :=
  if c = '"' then ['\\', '"']
  else if c = '\\' then ['\\', '\\']
  else if c = '\n' then ['\\', 'n']
  else if c = '\r' then ['\\', 'r']
  else if c = '\t' then ['\\', 't']
  else if c.toNat < 0x20 then
    '\\' :: 'u' :: '0' :: '0' :: [hexDigit (c.toNat / 16), hexDigit (c.toNat % 16)]
  else [c]

/-- JSON string literal for `s`. -/
def jsonStr (s : String) : String :=
  "\"" ++ String.mk (s.toList.foldr (fun c acc => jsonEscapeChar c ++ acc) []) ++ "\""

/-- `JSON.stringify` of a pusher object. -/
def jsonStringifyUser (u : GithubUser) : String :=
  "\x7b\"email\":" ++ jsonStr u.email ++ ",\"name\":" ++ jsonStr u.name ++ "\x7d"

/-- `JSON.stringify` of a commit object. -/
def jsonStringifyCommit (c : GithubCommit) : String :=
  "\x7b\"id\":" ++ jsonStr c.id ++ ",\"message\":" ++ jsonStr c.message ++ "\x7d"

/-- `JSON.stringify` of the parsed body object. -/
def jsonStringifyBody (b : GithubBody) : String :=
  let fields : List (Option String) :=
    [b.commits.map (fun cs =>
       "\"commits\":[" ++ String.intercalate "," (cs.map jsonStringifyCommit) ++ "]"),
     b.head_commit.map (fun c => "\"head_commit\":" ++ jsonStringifyCommit c),
     b.pusher.map (fun p => "\"pusher\":" ++ jsonStringifyUser p),
     b.base_ref.map (fun r => "\"base_ref\":" ++ jsonStr r),
     some ("\"ref\":" ++ jsonStr b.ref)]
  "\x7b" ++
    String.intercalate ","
      (fields.foldr (fun o acc => match o with | some s => s :: acc | none => acc) []) ++
    "\x7d"

/-- A raw body text `raw` parses (under `JSON.parse`, hence `bodyParser.json()`)
to the body object `b`.  Requiring the trimmed text to equal the compact
re-serialization is a sufficient condition: `JSON.parse` ignores surrounding
whitespace. -/
def ParsesTo (raw : String) (b : GithubBody) : Prop :=
  jsTrim raw = jsonStringifyBody b

/-! ## The engine (src/Puller.ts)

Each definition mirrors the method of the same name.  `handleRequest`
returns the observable outcome of one request: the HTTP response the engine
sent (if any), the lifecycle events it emitted, the commands it spawned,
and its boolean return value.  JavaScript exceptions propagate as
`Except.error`. -/

/-- `validateRequest` (lines 335-361): ordered structural checks, each
short-circuiting with a 400 response.  For a parsed-object body,
`req.body.length` is `undefined` and `undefined <= 0` is false, so the
body check fails exactly on an absent body. -/
def validateRequest (req : Request) : Option (Nat × String) :=
  if jsToLower req.method ≠ "post" then some (400, "invalid request method")
  else if jsFalsy (getHeader req "user-agent") then some (400, "missing user agent header")
  else if ¬ jsStartsWith ((getHeader req "user-agent").getD "") "GitHub-Hookshot/" then
    some (400, "invalid user agent")
  else if jsFalsy (getHeader req "x-hub-signature") then some (400, "missing request signature")
  else if jsFalsy (getHeader req "x-github-event") then some (400, "missing event")
  else if req.body.isNone then some (400, "missing body")
  else none

/-- `shouldHandleEvent` (lines 268-273). -/
def shouldHandleEvent (o : Options) (req : Request) : Bool :=
  match o.events with
  | [] => false
  | e0 :: _ =>
    if e0 = "*" then true
    else
      match getHeader req "x-github-event" with
      | none => false   -- `events.includes(undefined)` on a string list
      | some e => o.events.contains e

/-- `shouldHandleRef` (lines 275-286): `body.base_ref || body.ref` takes
`base_ref` only when truthy (present and non-empty); the branch regex
`/refs\/heads\//` (no anchors, no `g` flag) removes the first occurrence of
`refs/heads/` anywhere in the string. -/
def shouldHandleRef (o : Options) (b : GithubBody) : Bool :=
  match o.branches with
  | [] => false
  | b0 :: _ =>
    if b0 = "*" then true
    else if o.onlyTags && ¬ jsStartsWith b.ref "refs/tags/" then false
    else if b.ref = "" && jsFalsy b.base_ref then false
    else
      let source :=
        match b.base_ref with
        | some r => if r = "" then b.ref else r
        | none => b.ref
      o.branches.contains (jsTrim (replaceOnceStr "refs/heads/" "" source))

/-- `shouldHandlePusher` (lines 288-296). -/
def shouldHandlePusher (o : Options) (b : GithubBody) : Bool :=
  match o.pusherIgnoreRegex with
  | none => true
  | some rx =>
    match b.pusher with
    | none => true
    | some p => if p.name ≠ "" && rx p.name then false else true

/-- `shouldHandleCommit` (lines 298-307): `body.head_commit || body.commits[0]`,
guarded by `!body.head_commit && !body.commits` (an empty `commits` array is
truthy in JS). -/
def shouldHandleCommit (o : Options) (b : GithubBody) : Bool :=
  match o.commitIgnoreRegex with
  | none => true
  | some rx =>
    if b.head_commit.isNone && b.commits.isNone then true
    else
      let commit :=
        match b.head_commit with
        | some c => some c
        | none => (b.commits.getD []).head?
      match commit with
      | none => true
      | some c => if rx c.message then false else true

/-- `validateToken` (lines 311-317). -/
def validateToken (o : Options) (req : Request) : Bool :=
  if o.token = "" then true
  else if jsFalsy req.queryToken then false
  else req.queryToken.getD "" == o.token

/-- `validateSignature` (lines 319-333).  The digest is computed over
`JSON.stringify(req.body)` — the re-serialization of the parsed body, not
the raw request text.  With an absent body, `JSON.stringify(undefined)` is
`undefined` and `hmac.update(undefined)` throws.  The `||` in the source
short-circuits: on a byte-length mismatch the function returns false
without invoking `crypto.timingSafeEqual` (which would itself throw on
unequal lengths). -/
def validateSignature (o : Options) (req : Request) : Except String Bool :=
  if o.secret = "" then .ok true
  else
    let signature := getHeader req "x-hub-signature"
    if jsFalsy signature then .ok false
    else
      match req.body with
      | none => .error "TypeError: hmac.update called with undefined"
      | some b =>
        let digest := utf8Bytes ("sha1=" ++ hmacSha1Hex o.secret (jsonStringifyBody b))
        let checksum := utf8Bytes (signature.getD "")
        if checksum.length ≠ digest.length then .ok false
        else timingSafeEqual digest checksum

/-- `replaceVars` (lines 365-371): sequential global replacement of
`$name$` tokens, one configured variable after another, in the map's
insertion order. -/
def replaceVars (vars : List (String × String)) (str : String) : String :=
  vars.foldl (fun s p => replaceAllStr ("$" ++ p.1 ++ "$") p.2 s) str

/-- A lifecycle event emitted by the engine. -/
inductive Event where
  | before : Event
  | after : Option String → Event
  | error : String → Event
deriving DecidableEq

/-- `runCommand` (lines 400-410), returning the spawned commands and the
rejection (if any) of the awaited expression.  `exec` is the callback-style
`child_process.exec`: it returns a `ChildProcess` immediately and reports
the command's outcome only through a callback that the source does not
pass.  `await` of a non-thenable resolves to the value itself, so the
command's exit status (`exitOk`) is never observed and the awaited
expression never rejects. -/
def runCommand (o : Options) (exitOk : String → Bool) (cmd : String) :
    List String × Option String :=
  let cmd := replaceVars o.vars cmd
  if o.dryCommands then ([], none)
  else ([cmd], none)

/-- The `for (let cmd of commands[cat])` loop body of `runCategoryCommands`:
commands awaited in order, a rejection aborting the loop. -/
def runList (o : Options) (exitOk : String → Bool) : List String → List String × Option String
  | [] => ([], none)
  | cmd :: rest =>
    let (s, e) := runCommand o exitOk cmd
    match e with
    | some err => (s, some err)
    | none =>
      let (s2, e2) := runList o exitOk rest
      (s ++ s2, e2)

/-- `runCategoryCommands` (lines 389-398): a missing category is a logged
no-op; otherwise the category's commands are awaited in order. -/
def runCategoryCommands (o : Options) (exitOk : String → Bool) (cat : String) :
    List String × Option String :=
  match o.commands.lookup cat with
  | none => ([], none)
  | some cmds => runList o exitOk cmds

/-- The `for (let cat of commandOrder)` loop of `runAllCommands`: each
category preceded by its configured delay (a pure timed wait with no
observable effect here), a rejection aborting the iteration. -/
def runCats (o : Options) (exitOk : String → Bool) : List String → List String × Option String
  | [] => ([], none)
  | cat :: rest =>
    let (s, e) := runCategoryCommands o exitOk cat
    match e with
    | some err => (s, some err)
    | none =>
      let (s2, e2) := runCats o exitOk rest
      (s ++ s2, e2)

/-- `runAllCommands` (lines 381-387). -/
def runAllCommands (o : Options) (exitOk : String → Bool) :
    List String × Option String :=
  runCats o exitOk o.commandOrder

/-- Observable outcome of `handleRequest` for one request. -/
structure HandleOutcome where
  /-- the response the engine sent: status code and plain-text body
  (`""` for a bare `send()`), or `none` when no response was sent -/
  response : Option (Nat × String)
  /-- lifecycle events emitted, in order -/
  emitted : List Event
  /-- commands spawned (after variable substitution) -/
  spawned : List String
  /-- the boolean return value of `handleRequest` -/
  handled : Bool
deriving DecidableEq

/-- `handleRequest` (lines 212-266).  Structural validation, the four
relevance checks (soft 200), token and signature authentication (401), the
optional precondition gate (aborts with no response of its own), then the
`running` acknowledgment, the `before` event, the command run, and the
`after`/`error` events from its settlement.  The `none` body branch after
a passed validation is unreachable (`validateRequest` rejects absent
bodies). -/
def handleRequest (o : Options) (exitOk : String → Bool) (req : Request) :
    Except String HandleOutcome :=
  match validateRequest req with
  | some r => .ok ⟨some r, [], [], false⟩
  | none =>
    match req.body with
    | none => .ok ⟨none, [], [], false⟩
    | some body =>
      if ¬ shouldHandleEvent o req then .ok ⟨some (200, ""), [], [], false⟩
      else if ¬ shouldHandleRef o body then .ok ⟨some (200, ""), [], [], false⟩
      else if ¬ shouldHandlePusher o body then .ok ⟨some (200, ""), [], [], false⟩
      else if ¬ shouldHandleCommit o body then .ok ⟨some (200, ""), [], [], false⟩
      else if ¬ validateToken o req then .ok ⟨some (401, "invalid token"), [], [], false⟩
      else
        match validateSignature o req with
        | .error e => .error e
        | .ok sigOk =>
          if ¬ sigOk then .ok ⟨some (401, "invalid signature"), [], [], false⟩
          else
            let afterPrecondition :=
              let (spawned, err) := runAllCommands o exitOk
              let evs :=
                match err with
                | none => [Event.before, Event.after none]
                | some e => [Event.before, Event.error e, Event.after (some e)]
              Except.ok (⟨some (200, "running"), evs, spawned, true⟩ : HandleOutcome)
            match o.precondition with
            | some p => if p req then afterPrecondition else .ok ⟨none, [], [], false⟩
            | none => afterPrecondition

/-! ## Spec-side definitions (refinement counterparts)

These definitions follow the wording of the specification claims (not the
source); the theorems below compare them with the source embedding. -/

/-- First failing check of an ordered list wins, rejecting with 400 and its
diagnostic body; a request passing every check is accepted. -/
def firstFailing : List ((Request → Bool) × String) → Request → Option (Nat × String)
  | [], _ => none
  | (chk, msg) :: rest, req =>
    if chk req then some (400, msg) else firstFailing rest req

/-- The documented structural checks in their documented order, with the
exact diagnostic bodies: method, user-agent presence, user-agent prefix,
signature header, event header, body. -/
def structuralChecks : List ((Request → Bool) × String) :=
  [(fun req => !(jsToLower req.method == "post"), "invalid request method"),
   (fun req => jsFalsy (getHeader req "user-agent"), "missing user agent header"),
   (fun req => !jsStartsWith ((getHeader req "user-agent").getD "") "GitHub-Hookshot/",
     "invalid user agent"),
   (fun req => jsFalsy (getHeader req "x-hub-signature"), "missing request signature"),
   (fun req => jsFalsy (getHeader req "x-github-event"), "missing event"),
   (fun req => req.body.isNone, "missing body")]

/-- The branch name resolved by the amended ref-relevance wording:
`base_ref` when present and non-empty, else `ref`, with the first
occurrence of `refs/heads/` (anywhere in the string) removed. -/
def resolvedRefName (b : GithubBody) : String :=
  replaceOnceStr "refs/heads/" ""
    (match b.base_ref with
     | some r => if r = "" then b.ref else r
     | none => b.ref)

/-- The ref relevance check exactly as the original claim words it: the
branch name is resolved from `base_ref` whenever it is present (preferred
over `ref` even when empty), and `refs/heads/` is stripped only when it is
a leading prefix (11 characters). -/
def refRelevanceClaimed (o : Options) (b : GithubBody) : Bool :=
  match o.branches with
  | [] => false
  | b0 :: _ =>
    if b0 = "*" then true
    else if o.onlyTags && ¬ jsStartsWith b.ref "refs/tags/" then false
    else if b.ref = "" && jsFalsy b.base_ref then false
    else
      let source :=
        match b.base_ref with
        | some r => r
        | none => b.ref
      let branch :=
        if jsStartsWith source "refs/heads/" then String.mk (source.toList.drop 11)
        else source
      o.branches.contains (jsTrim branch)

/-! ## Concrete fixtures for witnesses and counterexamples -/

/-- Well-formed webhook headers. -/
def okHeaders : List (String × String) :=
  [("user-agent", "GitHub-Hookshot/abc"), ("x-hub-signature", "sig"),
   ("x-github-event", "push")]

/-- A push notification body for the default `main` branch. -/
def body1 : GithubBody := { ref := "refs/heads/main" }

/-- A well-formed, relevant push request. -/
def req1 : Request := { method := "POST", headers := okHeaders, body := some body1 }

/-- Default options with authentication disabled. -/
def optsPlain : Options := { DEFAULT_OPTIONS with secret := "", token := "" }

/-- Default options with a configured query token. -/
def optsToken : Options := { DEFAULT_OPTIONS with token := "tkn" }

/-- `req1` delivered as a `create` event (irrelevant for `events=["push"]`). -/
def reqCreate : Request :=
  { req1 with
      headers := [("user-agent", "GitHub-Hookshot/abc"), ("x-hub-signature", "sig"),
                  ("x-github-event", "create")] }

/-- Options whose precondition callback always refuses. -/
def optsPre : Options := { optsPlain with precondition := some (fun _ => false) }

/-- Options whose first configured command fails at runtime. -/
def optsCmd : Options :=
  { optsPlain with
      vars := [],
      commandOrder := ["git", "post"],
      commands := [("git", ["exit 1"]), ("post", ["echo done"])],
      delays := [] }

/-- Default options with the webhook secret `s`. -/
def optsSig : Options := { DEFAULT_OPTIONS with secret := "s" }

/-- A raw body text for `body1`: the compact serialization plus a trailing
space, which `JSON.parse` accepts unchanged. -/
def rawBody1 : String := jsonStringifyBody body1 ++ " "

/-- A well-formed request carrying `rawBody1`/`body1` and the given
signature header. -/
def reqSigned (h : String) : Request :=
  { method := "POST", rawBody := rawBody1,
    headers := [("user-agent", "GitHub-Hookshot/abc"), ("x-hub-signature", h),
                ("x-github-event", "push")],
    body := some body1 }

/-- The variable map of the idempotence counterexample: neither value
contains a `$a$`/`$b$` token, yet substituting `$b$` can splice one
together. -/
def csVars : List (String × String) := [("a", "X"), ("b", "$a")]

/-- The signature header the engine's own digest computation accepts:
HMAC over the re-serialized parsed body. -/
def sigGood : String := "sha1=" ++ hmacSha1Hex "s" (jsonStringifyBody body1)

/-- The signature header a webhook sender computes over the exact raw body
text `rawBody1`. -/
def sigRaw : String := "sha1=" ++ hmacSha1Hex "s" rawBody1

/-- A request with a signature header but no parsed body. -/
def reqNoBody : Request :=
  { method := "POST", headers := [("x-hub-signature", "x")], body := none }

/-- `req1` with a wrong query token. -/
def reqTokenWrong : Request := { req1 with queryToken := some "WRONG" }

/-- `reqCreate` (irrelevant event) with a wrong query token. -/
def reqCreateTokenWrong : Request := { reqCreate with queryToken := some "WRONG" }

/-- Options accepting only the `main` branch. -/
def optsMain : Options := { DEFAULT_OPTIONS with branches := ["main"] }

/-- A body whose `base_ref` is present but empty. -/
def bodyEmptyBase : GithubBody := { base_ref := some "", ref := "refs/heads/main" }

/-- Options accepting the literal branch name `refs/tags/x`. -/
def optsTagsList : Options := { DEFAULT_OPTIONS with branches := ["refs/tags/x"] }

/-- A body whose `ref` contains `refs/heads/` in a non-prefix position. -/
def bodyInfixRef : GithubBody := { ref := "refs/refs/heads/tags/x" }

/-- A well-formed push request for a branch outside the configured list. -/
def reqOther : Request :=
  { method := "POST", headers := okHeaders, body := some { ref := "refs/heads/other" } }

/-- A well-formed push request for the default `master` branch. -/
def reqMaster : Request :=
  { method := "POST", headers := okHeaders, body := some { ref := "refs/heads/master" } }

/-- Options with an empty events accept-list. -/
def optsNoEvents : Options := { optsPlain with events := [] }

/-! ## Helper lemmas -/

theorem runCommand_snd (o : Options) (exitOk : String → Bool) (cmd : String) :
    (runCommand o exitOk cmd).2 = none := by
  unfold runCommand
  split <;> rfl

theorem runList_snd (o : Options) (exitOk : String → Bool) :
    ∀ cmds, (runList o exitOk cmds).2 = none := by
  intro cmds
  induction cmds with
  | nil => rfl
  | cons cmd rest ih =>
    have h := runCommand_snd o exitOk cmd
    unfold runList
    cases hrc : runCommand o exitOk cmd with
    | mk s e =>
      rw [hrc] at h
      simp only at h
      subst h
      simp only []
      cases hrl : runList o exitOk rest with
      | mk s2 e2 =>
        rw [hrl] at ih
        simp only at ih
        subst ih
        rfl

theorem runCats_snd (o : Options) (exitOk : String → Bool) :
    ∀ cats, (runCats o exitOk cats).2 = none := by
  intro cats
  induction cats with
  | nil => rfl
  | cons cat rest ih =>
    have h : (runCategoryCommands o exitOk cat).2 = none := by
      unfold runCategoryCommands
      cases o.commands.lookup cat with
      | none => rfl
      | some cmds => exact runList_snd o exitOk cmds
    unfold runCats
    cases hrc : runCategoryCommands o exitOk cat with
    | mk s e =>
      rw [hrc] at h
      simp only at h
      subst h
      cases hrl : runCats o exitOk rest with
      | mk s2 e2 =>
        rw [hrl] at ih
        simp only at ih
        subst ih
        rfl

theorem runAllCommands_snd (o : Options) (exitOk : String → Bool) :
    (runAllCommands o exitOk).2 = none :=
  runCats_snd o exitOk o.commandOrder

theorem handleRequest_irrelevant (o : Options) (exitOk : String → Bool) (req : Request)
    (b : GithubBody) (hv : validateRequest req = none) (hb : req.body = some b)
    (hrel : ¬(shouldHandleEvent o req = true ∧ shouldHandleRef o b = true ∧
              shouldHandlePusher o b = true ∧ shouldHandleCommit o b = true)) :
    handleRequest o exitOk req = .ok ⟨some (200, ""), [], [], false⟩ := by
  unfold handleRequest
  rw [hv, hb]
  by_cases h1 : shouldHandleEvent o req = true
  · by_cases h2 : shouldHandleRef o b = true
    · by_cases h3 : shouldHandlePusher o b = true
      · by_cases h4 : shouldHandleCommit o b = true
        · exact absurd ⟨h1, h2, h3, h4⟩ hrel
        · simp [h1, h2, h3, h4]
      · simp [h1, h2, h3]
    · simp [h1, h2]
  · simp [h1]

theorem handleRequest_badToken (o : Options) (exitOk : String → Bool) (req : Request)
    (b : GithubBody) (hv : validateRequest req = none) (hb : req.body = some b)
    (h1 : shouldHandleEvent o req = true) (h2 : shouldHandleRef o b = true)
    (h3 : shouldHandlePusher o b = true) (h4 : shouldHandleCommit o b = true)
    (h5 : validateToken o req = false) :
    handleRequest o exitOk req = .ok ⟨some (401, "invalid token"), [], [], false⟩ := by
  unfold handleRequest
  rw [hv, hb]
  simp [h1, h2, h3, h4, h5]

theorem handleRequest_badSig (o : Options) (exitOk : String → Bool) (req : Request)
    (b : GithubBody) (hv : validateRequest req = none) (hb : req.body = some b)
    (h1 : shouldHandleEvent o req = true) (h2 : shouldHandleRef o b = true)
    (h3 : shouldHandlePusher o b = true) (h4 : shouldHandleCommit o b = true)
    (h5 : validateToken o req = true) (h6 : validateSignature o req = .ok false) :
    handleRequest o exitOk req = .ok ⟨some (401, "invalid signature"), [], [], false⟩ := by
  unfold handleRequest
  rw [hv, hb]
  simp [h1, h2, h3, h4, h5, h6]

theorem handleRequest_precondFalse (o : Options) (exitOk : String → Bool) (req : Request)
    (b : GithubBody) (p : Request → Bool)
    (hv : validateRequest req = none) (hb : req.body = some b)
    (h1 : shouldHandleEvent o req = true) (h2 : shouldHandleRef o b = true)
    (h3 : shouldHandlePusher o b = true) (h4 : shouldHandleCommit o b = true)
    (h5 : validateToken o req = true) (h6 : validateSignature o req = .ok true)
    (hp : o.precondition = some p) (hpf : p req = false) :
    handleRequest o exitOk req = .ok ⟨none, [], [], false⟩ := by
  unfold handleRequest
  rw [hv, hb]
  simp [h1, h2, h3, h4, h5, h6, hp, hpf]

theorem handleRequest_accept (o : Options) (exitOk : String → Bool) (req : Request)
    (b : GithubBody)
    (hv : validateRequest req = none) (hb : req.body = some b)
    (h1 : shouldHandleEvent o req = true) (h2 : shouldHandleRef o b = true)
    (h3 : shouldHandlePusher o b = true) (h4 : shouldHandleCommit o b = true)
    (h5 : validateToken o req = true) (h6 : validateSignature o req = .ok true)
    (hp : o.precondition = none ∨ ∃ p, o.precondition = some p ∧ p req = true) :
    handleRequest o exitOk req =
      .ok ⟨some (200, "running"), [Event.before, Event.after none],
           (runAllCommands o exitOk).1, true⟩ := by
  unfold handleRequest
  rw [hv, hb]
  cases hx : runAllCommands o exitOk with
  | mk a e =>
    have he : e = none := by
      have h := runAllCommands_snd o exitOk
      rw [hx] at h
      exact h
    subst he
    rcases hp with hp | ⟨p, hp, hpt⟩
    · simp [h1, h2, h3, h4, h5, h6, hp, hx]
    · simp [h1, h2, h3, h4, h5, h6, hp, hpt, hx]

theorem replaceAllFuel_of_not_contains (pat val : List Char) :
    ∀ fuel s, containsSub pat s = false → replaceAllFuel pat val fuel s = s := by
  intro fuel
  induction fuel with
  | zero =>
    intro s _
    cases s <;> rfl
  | succ n ih =>
    intro s h
    cases s with
    | nil => rfl
    | cons c rest =>
      unfold containsSub at h
      rw [Bool.or_eq_false_iff] at h
      obtain ⟨h1, h2⟩ := h
      unfold replaceAllFuel
      rw [if_neg]
      · rw [ih rest h2]
      · intro hcond
        exact absurd hcond.2 (by simp [h1])

theorem replaceAllL_of_not_contains (pat val s : List Char)
    (h : containsSub pat s = false) : replaceAllL pat val s = s :=
  replaceAllFuel_of_not_contains pat val s.length s h

theorem replaceVars_of_no_tokens (V : List (String × String)) :
    ∀ s : String, (∀ p ∈ V, containsSubStr ("$" ++ p.1 ++ "$") s = false) →
    replaceVars V s = s := by
  induction V with
  | nil => intro s _; rfl
  | cons p V ih =>
    intro s h
    have hp := h p (List.mem_cons_self p V)
    have hstep : replaceAllStr ("$" ++ p.1 ++ "$") p.2 s = s := by
      unfold containsSubStr at hp
      unfold replaceAllStr
      rw [replaceAllL_of_not_contains _ _ _ hp]
      rfl
    unfold replaceVars at ih ⊢
    simp only [List.foldl_cons]
    rw [hstep]
    exact ih s (fun q hq => h q (List.mem_cons_of_mem p hq))

theorem utf8EncodeChar_ascii (c : Char) (h : c.toNat < 128) :
    utf8EncodeChar c = [c.toNat] := by
  simp [utf8EncodeChar, h]

theorem utf8EncodeChar_head_high (c : Char) (h : ¬ c.toNat < 128) :
    ∃ b rest, utf8EncodeChar c = b :: rest ∧ 128 ≤ b := by
  by_cases h2 : c.toNat < 2048
  · exact ⟨0xC0 + c.toNat / 64, [0x80 + c.toNat % 64],
      by simp [utf8EncodeChar, h, h2], by omega⟩
  · by_cases h3 : c.toNat < 65536
    · exact ⟨0xE0 + c.toNat / 4096, [0x80 + c.toNat / 64 % 64, 0x80 + c.toNat % 64],
        by simp [utf8EncodeChar, h, h2, h3], by omega⟩
    · exact ⟨0xF0 + c.toNat / 262144,
        [0x80 + c.toNat / 4096 % 64, 0x80 + c.toNat / 64 % 64, 0x80 + c.toNat % 64],
        by simp [utf8EncodeChar, h, h2, h3], by omega⟩

theorem utf8Fold_ascii :
    ∀ l : List Char, (∀ c ∈ l, c.toNat < 128) →
      l.foldr (fun c acc => utf8EncodeChar c ++ acc) [] = l.map Char.toNat := by
  intro l
  induction l with
  | nil => intro _; rfl
  | cons c rest ih =>
    intro h
    simp only [List.foldr_cons, List.map_cons]
    rw [utf8EncodeChar_ascii c (h c (List.mem_cons_self c rest)),
        ih (fun d hd => h d (List.mem_cons_of_mem c hd))]
    rfl

theorem utf8Fold_inj_ascii :
    ∀ ls lt : List Char, (∀ c ∈ lt, c.toNat < 128) →
      ls.foldr (fun c acc => utf8EncodeChar c ++ acc) [] = lt.map Char.toNat →
      ls = lt := by
  intro ls
  induction ls with
  | nil =>
    intro t _ h
    simp only [List.foldr_nil] at h
    have ht : t = [] := List.map_eq_nil_iff.mp h.symm
    rw [ht]
  | cons c ls ih =>
    intro t hlt h
    simp only [List.foldr_cons] at h
    cases t with
    | nil =>
      simp only [List.map_nil] at h
      rcases List.append_eq_nil.mp h with ⟨h1, _⟩
      by_cases hc : c.toNat < 128
      · rw [utf8EncodeChar_ascii c hc] at h1
        cases h1
      · obtain ⟨b, r, he, _⟩ := utf8EncodeChar_head_high c hc
        rw [he] at h1
        cases h1
    | cons d t =>
      simp only [List.map_cons] at h
      have hd : d.toNat < 128 := hlt d (List.mem_cons_self d t)
      by_cases hc : c.toNat < 128
      · rw [utf8EncodeChar_ascii c hc] at h
        simp only [List.cons_append, List.nil_append, List.cons.injEq] at h
        obtain ⟨h1, h2⟩ := h
        have hcd : c = d := Char.ext (UInt32.ext h1)
        subst hcd
        rw [ih t (fun x hx => hlt x (List.mem_cons_of_mem c hx)) h2]
      · obtain ⟨b, r, he, hb⟩ := utf8EncodeChar_head_high c hc
        rw [he] at h
        simp only [List.cons_append, List.cons.injEq] at h
        omega

theorem hexDigit_lt_128 (n : Nat) : (hexDigit n).toNat < 128 := by
  unfold hexDigit
  by_cases h : n < 16
  · interval_cases n <;> decide
  · rw [List.getD_eq_default]
    · decide
    · rw [not_lt] at h
      calc ("0123456789abcdef".toList).length = 16 := by decide
        _ ≤ n := h

theorem hexFold_ascii (bs : List Nat) :
    ∀ c ∈ bs.foldr (fun b acc => hexDigit (b / 16) :: hexDigit (b % 16) :: acc) [],
      c.toNat < 128 := by
  induction bs with
  | nil => intro c hc; cases hc
  | cons b rest ih =>
    intro c hc
    simp only [List.foldr_cons, List.mem_cons] at hc
    rcases hc with h | h | h
    · rw [h]; exact hexDigit_lt_128 _
    · rw [h]; exact hexDigit_lt_128 _
    · exact ih c h

theorem bytesToHex_ascii (bs : List Nat) :
    ∀ c ∈ (bytesToHex bs).toList, c.toNat < 128 := by
  intro c hc
  exact hexFold_ascii bs c hc

theorem sigHeader_ascii (secret m : String) :
    ∀ c ∈ ("sha1=" ++ hmacSha1Hex secret m).toList, c.toNat < 128 := by
  intro c hc
  have hsplit : ("sha1=" ++ hmacSha1Hex secret m).toList
      = "sha1=".toList ++ (hmacSha1Hex secret m).toList := by
    show ("sha1=" ++ hmacSha1Hex secret m).data = _
    rw [String.data_append]
    rfl
  rw [hsplit] at hc
  rcases List.mem_append.mp hc with h | h
  · fin_cases h <;> decide
  · exact bytesToHex_ascii _ c h

theorem string_eq_of_data_eq {s t : String} (h : s.toList = t.toList) : s = t := by
  cases s
  cases t
  exact congrArg String.mk h

theorem utf8Bytes_eq_iff_of_ascii (s t : String) (h : ∀ c ∈ t.toList, c.toNat < 128) :
    utf8Bytes s = utf8Bytes t ↔ s = t := by
  constructor
  · intro he
    have ht : utf8Bytes t = t.toList.map Char.toNat := utf8Fold_ascii t.toList h
    exact string_eq_of_data_eq
      (utf8Fold_inj_ascii s.toList t.toList h (by rw [← ht]; exact he))
  · intro he
    rw [he]

theorem validateSignature_char (o : Options) (req : Request) (b : GithubBody) (sig : String)
    (hsecret : o.secret ≠ "") (hb : req.body = some b)
    (hh : getHeader req "x-hub-signature" = some sig) (hsig : sig ≠ "") :
    validateSignature o req =
      .ok (sig == "sha1=" ++ hmacSha1Hex o.secret (jsonStringifyBody b)) := by
  unfold validateSignature
  rw [if_neg hsecret, hh, hb]
  have hf : jsFalsy (some sig) = false := by simp [jsFalsy, hsig]
  simp only [hf, Bool.false_eq_true, if_false, Option.getD_some]
  set D := "sha1=" ++ hmacSha1Hex o.secret (jsonStringifyBody b) with hD
  have hascii : ∀ c ∈ D.toList, c.toNat < 128 :=
    sigHeader_ascii o.secret (jsonStringifyBody b)
  by_cases hlen : (utf8Bytes sig).length = (utf8Bytes D).length
  · rw [if_neg (by omega)]
    unfold timingSafeEqual
    rw [if_neg (by omega)]
    congr 1
    by_cases hsd : sig = D
    · subst hsd
      simp
    · have h1 : (utf8Bytes D == utf8Bytes sig) = false := by
        rw [beq_eq_false_iff_ne]
        intro hcontr
        exact hsd ((utf8Bytes_eq_iff_of_ascii sig D hascii).mp hcontr.symm)
      have h2 : (sig == D) = false := by
        rw [beq_eq_false_iff_ne]
        exact hsd
      rw [h1, h2]
  · rw [if_pos (by omega)]
    have h2 : (sig == D) = false := by
      rw [beq_eq_false_iff_ne]
      intro hcontr
      exact hlen (by rw [hcontr])
    rw [h2]

theorem sha1Header_ne_empty (x : String) : "sha1=" ++ x ≠ "" := by
  intro h
  have hd := congrArg String.data h
  rw [String.data_append] at hd
  exact List.noConfusion hd

/-! ## Claim theorems -/

/-- C1 (amended): with a configured secret, a present parsed body, and a
present non-empty `x-hub-signature` header, signature verification returns
true if and only if the header equals `sha1=` followed by the lowercase hex
HMAC-SHA1 digest of the secret over `JSON.stringify(req.body)` — the
re-serialization of the parsed body, not the raw request text.  A
header/digest byte-length mismatch yields false without entering the
constant-time comparison (whose length guard would otherwise throw), a
missing or empty signature header yields false, and an empty configured
secret skips the check entirely. -/
theorem c1_theorem :
    (∀ (o : Options) (req : Request), o.secret = "" →
      validateSignature o req = .ok true)
    ∧ (∀ (o : Options) (req : Request), o.secret ≠ "" →
        jsFalsy (getHeader req "x-hub-signature") = true →
        validateSignature o req = .ok false)
    ∧ (∀ (o : Options) (req : Request) (b : GithubBody) (sig : String),
        o.secret ≠ "" → req.body = some b →
        getHeader req "x-hub-signature" = some sig → sig ≠ "" →
        validateSignature o req =
          .ok (sig == "sha1=" ++ hmacSha1Hex o.secret (jsonStringifyBody b))) := by
  refine ⟨?_, ?_, ?_⟩
  · intro o req h
    unfold validateSignature
    rw [if_pos h]
  · intro o req h hf
    unfold validateSignature
    rw [if_neg h]
    simp only [hf, if_true]
  · intro o req b sig h1 h2 h3 h4
    exact validateSignature_char o req b sig h1 h2 h3 h4

/-- C1 witness: a header computed the way the engine computes it (over the
re-serialized body) verifies. -/
theorem c1_witness : validateSignature optsSig (reqSigned sigGood) = .ok true := by
  have h := c1_theorem.2.2 optsSig (reqSigned sigGood) body1 sigGood
    (by decide) rfl rfl (sha1Header_ne_empty _)
  rw [h]
  have hs : sigGood = "sha1=" ++ hmacSha1Hex optsSig.secret (jsonStringifyBody body1) := rfl
  rw [hs]
  simp

set_option maxRecDepth 1000000 in
/-- C1 counterexample: `rawBody1` parses to `body1` (it is the compact
serialization plus a trailing space), yet the header computed over the
exact raw body text is rejected — the code digests the re-serialization
instead; and with a missing body the check throws a `TypeError` rather
than returning false. -/
theorem c1_counterexample :
    ParsesTo rawBody1 body1
    ∧ validateSignature optsSig (reqSigned sigRaw) = .ok false
    ∧ validateSignature optsSig reqNoBody =
        .error "TypeError: hmac.update called with undefined" :=
  ⟨rfl, rfl, rfl⟩

/-- C2: the code does not abort on command failure.  `exec` is the
callback-style `child_process.exec`, so `await exec(cmd)` resolves
immediately with the `ChildProcess` and never rejects: even when the first
configured command fails (`exitOk "exit 1" = false`), every later command
in every later category is still spawned, the run settles without an
error, and the engine emits `after` with no error — the `error` event and
the `catch` branch of `handleRequest` are unreachable.  This contradicts
the claim (and the engine's own declared `error` event interface), whose
intent is that the first failure aborts the run and reaches the caller. -/
theorem c2_theorem : ∀ exitOk : String → Bool, exitOk "exit 1" = false →
    runAllCommands optsCmd exitOk = (["exit 1", "echo done"], none)
    ∧ handleRequest optsCmd exitOk req1 =
        .ok ⟨some (200, "running"), [Event.before, Event.after none],
             ["exit 1", "echo done"], true⟩ :=
  fun _ _ => ⟨rfl, rfl⟩

/-- C2 witness: instantiation at an environment in which `exit 1` fails. -/
theorem c2_witness :
    (fun _ : String => false) "exit 1" = false
    ∧ runAllCommands optsCmd (fun _ => false) = (["exit 1", "echo done"], none)
    ∧ handleRequest optsCmd (fun _ => false) req1 =
        .ok ⟨some (200, "running"), [Event.before, Event.after none],
             ["exit 1", "echo done"], true⟩ :=
  ⟨rfl, (c2_theorem (fun _ => false) rfl).1, (c2_theorem (fun _ => false) rfl).2⟩

/-- C3 (amended): the relevance checks run before the authentication
checks.  A structurally valid, relevant request with an invalid token (or
a valid token and an invalid signature) is rejected with 401 and the
documented body; an irrelevant request is soft-ignored with 200 and an
empty body regardless of the token or signature. -/
theorem c3_theorem :
    (∀ (o : Options) (exitOk : String → Bool) (req : Request) (b : GithubBody),
      validateRequest req = none → req.body = some b →
      shouldHandleEvent o req = true → shouldHandleRef o b = true →
      shouldHandlePusher o b = true → shouldHandleCommit o b = true →
      validateToken o req = false →
      handleRequest o exitOk req = .ok ⟨some (401, "invalid token"), [], [], false⟩)
    ∧ (∀ (o : Options) (exitOk : String → Bool) (req : Request) (b : GithubBody),
        validateRequest req = none → req.body = some b →
        shouldHandleEvent o req = true → shouldHandleRef o b = true →
        shouldHandlePusher o b = true → shouldHandleCommit o b = true →
        validateToken o req = true → validateSignature o req = .ok false →
        handleRequest o exitOk req = .ok ⟨some (401, "invalid signature"), [], [], false⟩)
    ∧ (∀ (o : Options) (exitOk : String → Bool) (req : Request) (b : GithubBody),
        validateRequest req = none → req.body = some b →
        shouldHandleEvent o req = false ∨ shouldHandleRef o b = false ∨
          shouldHandlePusher o b = false ∨ shouldHandleCommit o b = false →
        handleRequest o exitOk req = .ok ⟨some (200, ""), [], [], false⟩) := by
  refine ⟨handleRequest_badToken, handleRequest_badSig, ?_⟩
  intro o exitOk req b hv hb hd
  apply handleRequest_irrelevant o exitOk req b hv hb
  rintro ⟨he, hr, hp, hc⟩
  rcases hd with h | h | h | h
  · rw [h] at he; cases he
  · rw [h] at hr; cases hr
  · rw [h] at hp; cases hp
  · rw [h] at hc; cases hc

/-- C3 witness: a relevant request with a wrong token is answered with
401 "invalid token". -/
theorem c3_witness :
    handleRequest optsToken (fun _ => true) reqTokenWrong =
      .ok ⟨some (401, "invalid token"), [], [], false⟩ :=
  c3_theorem.1 optsToken (fun _ => true) reqTokenWrong body1
    rfl rfl rfl rfl rfl rfl rfl

/-- C3 counterexample: an irrelevant notification (a `create` event against
`events=["push"]`) carrying an invalid token is answered with 200 and an
empty body — not with the 401 the claim requires for every invalid-token
request. -/
theorem c3_counterexample :
    validateToken optsToken reqCreateTokenWrong = false
    ∧ handleRequest optsToken (fun _ => true) reqCreateTokenWrong =
        .ok ⟨some (200, ""), [], [], false⟩ :=
  ⟨rfl, rfl⟩

/-- C4 (amended): the ref relevance check accepts iff the branch list is
non-empty and either its first entry is `*`, or all of: when `onlyTags` is
set the ref starts with `refs/tags/`; not both `ref` and `base_ref` are
absent/empty; and the name resolved from `base_ref` when present and
non-empty (else `ref`), with the first occurrence of `refs/heads/` removed
(anywhere in the string, not only as a prefix) and whitespace trimmed, is
a member of the configured branches.  A failed ref check on a structurally
valid request is answered with HTTP 200 and an empty body. -/
theorem c4_theorem :
    (∀ (o : Options) (b : GithubBody), shouldHandleRef o b = true ↔
      (o.branches ≠ [] ∧
        (o.branches.head? = some "*" ∨
          ((o.onlyTags = true → jsStartsWith b.ref "refs/tags/" = true) ∧
           ¬(b.ref = "" ∧ jsFalsy b.base_ref = true) ∧
           jsTrim (resolvedRefName b) ∈ o.branches))))
    ∧ (∀ (o : Options) (exitOk : String → Bool) (req : Request) (b : GithubBody),
        validateRequest req = none → req.body = some b →
        shouldHandleRef o b = false →
        handleRequest o exitOk req = .ok ⟨some (200, ""), [], [], false⟩) := by
  constructor
  · intro o b
    unfold shouldHandleRef resolvedRefName
    cases hbr : o.branches with
    | nil => simp
    | cons b0 rest =>
      by_cases hstar : b0 = "*"
      · subst hstar
        simp
      · by_cases htags : o.onlyTags
        · by_cases href : jsStartsWith b.ref "refs/tags/"
          · by_cases hempty : b.ref = ""
            · by_cases hbase : jsFalsy b.base_ref
              · simp [hstar, htags, href, hempty, hbase]
              · simp [hstar, htags, href, hempty, hbase, List.elem_iff]
            · by_cases hbase : jsFalsy b.base_ref
              · simp [hstar, htags, href, hempty, hbase, List.elem_iff]
              · simp [hstar, htags, href, hempty, hbase, List.elem_iff]
          · simp [hstar, htags, href]
        · by_cases hempty : b.ref = ""
          · by_cases hbase : jsFalsy b.base_ref
            · simp [hstar, htags, hempty, hbase]
            · simp [hstar, htags, hempty, hbase, List.elem_iff]
          · by_cases hbase : jsFalsy b.base_ref
            · simp [hstar, htags, hempty, hbase, List.elem_iff]
            · simp [hstar, htags, hempty, hbase, List.elem_iff]
  · intro o exitOk req b hv hb hr
    apply handleRequest_irrelevant o exitOk req b hv hb
    rintro ⟨_, h2, _, _⟩
    rw [hr] at h2
    cases h2

/-- C4 witness: a push for an unlisted branch is soft-ignored with 200. -/
theorem c4_witness :
    handleRequest optsMain (fun _ => true) reqOther =
      .ok ⟨some (200, ""), [], [], false⟩ :=
  c4_theorem.2 optsMain (fun _ => true) reqOther { ref := "refs/heads/other" }
    rfl rfl rfl

/-- C4 counterexample: two bodies on which the claim's wording and the code
disagree.  With `branches=["main"]` and `base_ref=""` (present but empty)
the claim resolves the branch from `base_ref` and rejects, but the code
falls through to `ref` and accepts; with `branches=["refs/tags/x"]` and
`ref="refs/refs/heads/tags/x"` the claim strips no prefix and rejects, but
the code removes the inner `refs/heads/` occurrence and accepts. -/
theorem c4_counterexample :
    refRelevanceClaimed optsMain bodyEmptyBase = false
    ∧ shouldHandleRef optsMain bodyEmptyBase = true
    ∧ refRelevanceClaimed optsTagsList bodyInfixRef = false
    ∧ shouldHandleRef optsTagsList bodyInfixRef = true :=
  ⟨rfl, rfl, rfl, rfl⟩

/-- C5 (amended): substitution is sequential — with vars
`\x7ba: "$b$", b: "X"\x7d` the template `"$a$"` expands to `"X"` — and it
is idempotent whenever the once-substituted result no longer contains any
`$name$` token of a configured variable (the original side condition, that
no replacement value contains such a token, is not sufficient). -/
theorem c5_theorem :
    replaceVars [("a", "$b$"), ("b", "X")] "$a$" = "X"
    ∧ ∀ (V : List (String × String)) (T : String),
        (∀ p ∈ V, containsSubStr ("$" ++ p.1 ++ "$") (replaceVars V T) = false) →
        replaceVars V (replaceVars V T) = replaceVars V T :=
  ⟨rfl, fun V T h => replaceVars_of_no_tokens V (replaceVars V T) h⟩

/-- C5 witness: instantiation of the idempotence statement at a template
whose substitution result is token-free. -/
theorem c5_witness :
    replaceVars csVars (replaceVars csVars "X") = replaceVars csVars "X" :=
  c5_theorem.2 csVars "X" (by decide)

/-- C5 counterexample: in `csVars = [(a, "X"), (b, "$a")]` no replacement
value contains a `$a$` or `$b$` token, yet substitution on `"$b$$"` is not
idempotent: one pass yields `"$a$"` (the `$b$` replacement splices a new
token together with the trailing `$` of the template), a second pass
yields `"X"`. -/
theorem c5_counterexample :
    (csVars.all fun p => csVars.all fun q =>
      !containsSubStr ("$" ++ q.1 ++ "$") p.2) = true
    ∧ replaceVars csVars (replaceVars csVars "$b$$") ≠ replaceVars csVars "$b$$" :=
  ⟨rfl, by decide⟩

/-- C6: when any relevance check rejects a structurally valid notification,
the engine answers 200 with an empty body and nothing else happens: no
command is spawned and no before/after/error event is emitted. -/
theorem c6_theorem :
    ∀ (o : Options) (exitOk : String → Bool) (req : Request) (b : GithubBody),
      validateRequest req = none → req.body = some b →
      ¬(shouldHandleEvent o req = true ∧ shouldHandleRef o b = true ∧
        shouldHandlePusher o b = true ∧ shouldHandleCommit o b = true) →
      handleRequest o exitOk req = .ok ⟨some (200, ""), [], [], false⟩ :=
  handleRequest_irrelevant

/-- C6 witness: a correctly formed but irrelevant (`create`) notification
under the default options. -/
theorem c6_witness :
    handleRequest DEFAULT_OPTIONS (fun _ => true) reqCreate =
      .ok ⟨some (200, ""), [], [], false⟩ :=
  c6_theorem DEFAULT_OPTIONS (fun _ => true) reqCreate body1 rfl rfl
    (by decide)

/-- C7 (amended): a configured precondition returning false is a final
gate — no before/after/error event is emitted, no command is spawned, and
`handleRequest` returns false — but contrary to the original claim the
engine has sent no response at all at that point: the `running`
acknowledgment is only sent after the precondition passes. -/
theorem c7_theorem :
    ∀ (o : Options) (exitOk : String → Bool) (req : Request) (b : GithubBody)
      (p : Request → Bool),
      validateRequest req = none → req.body = some b →
      shouldHandleEvent o req = true → shouldHandleRef o b = true →
      shouldHandlePusher o b = true → shouldHandleCommit o b = true →
      validateToken o req = true → validateSignature o req = .ok true →
      o.precondition = some p → p req = false →
      handleRequest o exitOk req = .ok ⟨none, [], [], false⟩ :=
  fun o exitOk req b p hv hb h1 h2 h3 h4 h5 h6 hp hpf =>
    handleRequest_precondFalse o exitOk req b p hv hb h1 h2 h3 h4 h5 h6 hp hpf

/-- C7 witness: instantiation at a relevant, authenticated request and an
always-false precondition. -/
theorem c7_witness :
    handleRequest optsPre (fun _ => true) reqMaster = .ok ⟨none, [], [], false⟩ :=
  c7_theorem optsPre (fun _ => true) reqMaster { ref := "refs/heads/master" }
    (fun _ => false) rfl rfl rfl rfl rfl rfl rfl rfl rfl rfl

/-- C7 counterexample: with a refusing precondition the engine sends no
response at all (`response = none`), contradicting the claim that the
response has already been sent by the time the precondition gate aborts. -/
theorem c7_counterexample :
    handleRequest optsPre (fun _ => true) req1 = .ok ⟨none, [], [], false⟩ :=
  rfl

/-- C8: the structural checks are applied in the fixed documented order —
method, user-agent presence, user-agent prefix, signature header, event
header, body — each short-circuiting with 400 and exactly the documented
plain-text diagnostic, and the authentication rejections and the
acceptance carry exactly `invalid token`/`invalid signature` (401) and
`running` (200). -/
theorem c8_theorem :
    (∀ req, validateRequest req = firstFailing structuralChecks req)
    ∧ (∀ (o : Options) (exitOk : String → Bool) (req : Request) (b : GithubBody),
        validateRequest req = none → req.body = some b →
        shouldHandleEvent o req = true → shouldHandleRef o b = true →
        shouldHandlePusher o b = true → shouldHandleCommit o b = true →
        validateToken o req = false →
        handleRequest o exitOk req = .ok ⟨some (401, "invalid token"), [], [], false⟩)
    ∧ (∀ (o : Options) (exitOk : String → Bool) (req : Request) (b : GithubBody),
        validateRequest req = none → req.body = some b →
        shouldHandleEvent o req = true → shouldHandleRef o b = true →
        shouldHandlePusher o b = true → shouldHandleCommit o b = true →
        validateToken o req = true → validateSignature o req = .ok false →
        handleRequest o exitOk req =
          .ok ⟨some (401, "invalid signature"), [], [], false⟩)
    ∧ (∀ (o : Options) (exitOk : String → Bool) (req : Request) (b : GithubBody),
        validateRequest req = none → req.body = some b →
        shouldHandleEvent o req = true → shouldHandleRef o b = true →
        shouldHandlePusher o b = true → shouldHandleCommit o b = true →
        validateToken o req = true → validateSignature o req = .ok true →
        (o.precondition = none ∨ ∃ p, o.precondition = some p ∧ p req = true) →
        handleRequest o exitOk req =
          .ok ⟨some (200, "running"), [Event.before, Event.after none],
               (runAllCommands o exitOk).1, true⟩) := by
  refine ⟨?_, handleRequest_badToken, handleRequest_badSig, handleRequest_accept⟩
  intro req
  unfold validateRequest structuralChecks firstFailing
  by_cases h1 : jsToLower req.method = "post"
  · simp only [h1]
    by_cases h2 : jsFalsy (getHeader req "user-agent")
    · simp [firstFailing, h2]
    · by_cases h3 : jsStartsWith ((getHeader req "user-agent").getD "") "GitHub-Hookshot/"
      · by_cases h4 : jsFalsy (getHeader req "x-hub-signature")
        · simp [firstFailing, h2, h3, h4]
        · by_cases h5 : jsFalsy (getHeader req "x-github-event")
          · simp [firstFailing, h2, h3, h4, h5]
          · by_cases h6 : req.body.isNone
            · simp [firstFailing, h2, h3, h4, h5, h6]
            · simp [firstFailing, h2, h3, h4, h5, h6]
      · simp [firstFailing, h2, h3]
  · simp [firstFailing, h1]

/-- C8 witness: a well-formed, relevant, authenticated request under the
default commands is acknowledged with 200 `running`, after which the four
default command categories are spawned in order. -/
theorem c8_witness :
    handleRequest optsPlain (fun _ => true) req1 =
      .ok ⟨some (200, "running"), [Event.before, Event.after none],
           ["git fetch origin master", "git pull origin master", "npm install",
            "pm2 restart ExampleApp"], true⟩ :=
  c8_theorem.2.2.2 optsPlain (fun _ => true) req1 body1
    rfl rfl rfl rfl rfl rfl rfl rfl (Or.inl rfl)

/-- C9: constructing a `Puller` without an options argument throws a
`TypeError` (the constructor dereferences `options.vars`,
`options.commands` and `options.delays` unconditionally), while an empty
options object yields exactly the documented default configuration. -/
theorem c9_theorem :
    pullerConstructor none = .error "TypeError: cannot read vars of undefined"
    ∧ pullerConstructor (some {}) = .ok DEFAULT_OPTIONS :=
  ⟨rfl, rfl⟩

/-- C10: an empty accept-list rejects: with `events = []` the event check
returns false, with `branches = []` the ref check returns false, and a
structurally valid request under either empty list is soft-ignored with
200, an empty body, no commands and no events. -/
theorem c10_theorem :
    (∀ (o : Options) (req : Request), o.events = [] →
      shouldHandleEvent o req = false)
    ∧ (∀ (o : Options) (b : GithubBody), o.branches = [] →
        shouldHandleRef o b = false)
    ∧ (∀ (o : Options) (exitOk : String → Bool) (req : Request) (b : GithubBody),
        validateRequest req = none → req.body = some b →
        o.events = [] ∨ o.branches = [] →
        handleRequest o exitOk req = .ok ⟨some (200, ""), [], [], false⟩) := by
  refine ⟨?_, ?_, ?_⟩
  · intro o req h
    unfold shouldHandleEvent
    rw [h]
  · intro o b h
    unfold shouldHandleRef
    rw [h]
  · intro o exitOk req b hv hb hd
    apply handleRequest_irrelevant o exitOk req b hv hb
    rintro ⟨he, hr, _, _⟩
    rcases hd with h | h
    · unfold shouldHandleEvent at he
      rw [h] at he
      cases he
    · unfold shouldHandleRef at hr
      rw [h] at hr
      cases hr

/-- C10 witness: with an empty events list every well-formed request is
soft-ignored with 200. -/
theorem c10_witness :
    handleRequest optsNoEvents (fun _ => true) req1 =
      .ok ⟨some (200, ""), [], [], false⟩ :=
  c10_theorem.2.2 optsNoEvents (fun _ => true) req1 body1 rfl rfl (Or.inl rfl)

end ExpressGitPuller
